import Mathlib

/-!
Verification development for the weekly lesson-study downloader.

The Python source (download_lesson_study.py) is shallowly embedded below:
pure functions become Lean functions, the filesystem becomes an explicit
record state, external collaborators (search provider, download provider,
HTTP probes) become function parameters, and the exception raised by
reading a missing URL store becomes an explicit Except error.
-/

namespace LessonStudy

/-! ## Calendar arithmetic (model of Python datetime day arithmetic)

A date is a (year, month, day) triple of the proleptic Gregorian
calendar.  `rataDie` is the day number with 0001-01-01 = 1, so that
date subtraction and `weekday` (Monday = 0 .. Sunday = 6, exactly
Python `datetime.weekday()`) are plain integer arithmetic. -/

def isLeapYear (y : Nat) : Bool :=
  (y % 4 == 0 && y % 100 != 0) || y % 400 == 0

def daysInMonth (y m : Nat) : Nat :=
  if m = 2 then (if isLeapYear y then 29 else 28)
  else if m = 4 ∨ m = 6 ∨ m = 9 ∨ m = 11 then 30
  else 31

/-- Days of year `y` that lie strictly before month `m`. -/
def daysBeforeMonth (y : Nat) : Nat → Nat
  | 0 => 0
  | 1 => 0
  | m + 2 => daysBeforeMonth y (m + 1) + daysInMonth y (m + 1)

/-- Day number of a Gregorian date, with 0001-01-01 = 1. -/
def rataDie (y m d : Nat) : Nat :=
  365 * (y - 1) + (y - 1) / 4 + (y - 1) / 400 - (y - 1) / 100 + daysBeforeMonth y m + d

/-- Python `datetime.weekday()`: Monday = 0 .. Sunday = 6, on day numbers. -/
def weekday (rd : Nat) : Nat := (rd + 6) % 7

/-- `weekday` extended to integer day numbers. -/
def weekdayI (o : Int) : Int := (o + 6) % 7

structure Date where
  year : Nat
  month : Nat
  day : Nat
deriving DecidableEq, Repr

/-- A valid proleptic Gregorian calendar date (the domain of Python datetime). -/
def Date.valid (dt : Date) : Prop :=
  1 ≤ dt.year ∧ 1 ≤ dt.month ∧ dt.month ≤ 12 ∧ 1 ≤ dt.day ∧ dt.day ≤ daysInMonth dt.year dt.month

instance (dt : Date) : Decidable dt.valid := by
  unfold Date.valid; infer_instance

/-! ## get_quarter_and_week -/

/-- The `quarter_start_month` selected by the if/elif chain of
`get_quarter_and_week`. -/
def quarterStartMonth (month : Nat) : Nat :=
  if 1 ≤ month ∧ month ≤ 3 then 1
  else if 4 ≤ month ∧ month ≤ 6 then 4
  else if 7 ≤ month ∧ month ≤ 9 then 7
  else 10

/-- The `quarter` selected by the if/elif chain of `get_quarter_and_week`. -/
def quarterOf (month : Nat) : Int :=
  if 1 ≤ month ∧ month ≤ 3 then 1
  else if 4 ≤ month ∧ month ≤ 6 then 2
  else if 7 ≤ month ∧ month ≤ 9 then 3
  else 4

/-- `(quarter_start.weekday() - 5) % 7` of the source (Python `%` on ints
is `Int.emod` for a positive modulus). -/
def days_since_saturday (dt : Date) : Int :=
  ((weekday (rataDie dt.year (quarterStartMonth dt.month) 1) : Int) - 5) % 7

/-- `week_start_date = quarter_start - timedelta(days=days_since_saturday)`. -/
def week_start_date (dt : Date) : Int :=
  (rataDie dt.year (quarterStartMonth dt.month) 1 : Int) - days_since_saturday dt

/-- `(date - week_start_date).days`. -/
def day_difference (dt : Date) : Int :=
  (rataDie dt.year dt.month dt.day : Int) - week_start_date dt

/-- `get_quarter_and_week` of the source: Python `//` is `Int.fdiv`. -/
def get_quarter_and_week (dt : Date) : Int × Int :=
  (quarterOf dt.month, (day_difference dt).fdiv 7 + 1)

/-! ## String utilities (models of the Python str operations used) -/

/-- The straight single quote character (the fourth stripped quote variant). -/
def quoteS : Char := Char.ofNat 39

/-- Python `\s` / `str.strip()` whitespace characters. -/
def isSpaceChar (c : Char) : Bool :=
  c = ' ' || c = '\t' || c = '\n' || c = '\r' || c = Char.ofNat 11 || c = Char.ofNat 12

/-- Strip every leading and trailing character satisfying `p`
(Python `str.strip(chars)` with `chars` the set accepted by `p`). -/
def stripEnds (p : Char → Bool) (s : List Char) : List Char :=
  ((s.dropWhile p).reverse.dropWhile p).reverse

/-- Python `str.split(sep)` for a one-character separator. -/
def splitOnChar (c : Char) : List Char → List (List Char)
  | [] => [[]]
  | x :: xs =>
    if x = c then [] :: splitOnChar c xs
    else
      match splitOnChar c xs with
      | [] => [[x]]
      | h :: t => (x :: h) :: t

/-- Does `pat` start the list `s`? -/
def startsWithLit : List Char → List Char → Bool
  | [], _ => true
  | _ :: _, [] => false
  | p :: ps, x :: xs => p = x && startsWithLit ps xs

/-- Does `pat` occur as a contiguous substring of `s`? -/
def occursIn (pat : List Char) : List Char → Bool
  | [] => startsWithLit pat []
  | c :: cs => startsWithLit pat (c :: cs) || occursIn pat cs

/-- Does `s` end with `suf`? -/
def endsWithLit (suf s : List Char) : Bool :=
  startsWithLit suf.reverse s.reverse

/-- Decimal digits of a natural number. -/
def natToChars (n : Nat) : List Char := Nat.toDigits 10 n

/-- Python `str(int)`. -/
def intToChars (n : Int) : List Char :=
  if n < 0 then '-' :: natToChars n.natAbs else natToChars n.toNat

/-- Left-pad with zeros to `k` characters (strftime zero padding). -/
def padZero (k : Nat) (s : List Char) : List Char :=
  List.replicate (k - s.length) '0' ++ s

/-! ## Title extraction (`get_lesson_title`, lines 119-127)

`video_title.split("|")[0].strip().strip(DQ).strip(LC).strip(RC).strip(SQ)`
where DQ is the straight double quote, LC/RC the curly double quotes and
SQ the straight single quote; without a pipe, `video_title.strip()`. -/

def extract_lesson_title (video_title : List Char) : List Char :=
  if video_title.contains '|' then
    stripEnds (fun c => c = quoteS)
      (stripEnds (fun c => c = '”')
        (stripEnds (fun c => c = '“')
          (stripEnds (fun c => c = '"')
            (stripEnds isSpaceChar ((splitOnChar '|' video_title).headD [])))))
  else
    stripEnds isSpaceChar video_title

/-- `get_lesson_title` given the raw title returned by the lookup
collaborator (`none` models no search results or a raised-and-caught
exception, in which case the function returns `None`). -/
def get_lesson_title (raw : Option (List Char)) : Option (List Char) :=
  match raw with
  | none => none
  | some t => some (extract_lesson_title t)

/-! ## Converting a day number back to a calendar date

Inverse of `rataDie`, needed to model `strftime('%Y-%m-%d')` on the
dates probed by the daily fetcher. -/

/-- Gregorian (year, month, day) of a day number (0001-01-01 = 1). -/
def civilFromDaysNat (n : Nat) : Nat × Nat × Nat :=
  let z := n + 305
  let era := z / 146097
  let doe := z % 146097
  let yoe := (doe - doe / 1460 + doe / 36524 - doe / 146096) / 365
  let y := yoe + era * 400
  let doy := doe - (365 * yoe + yoe / 4 - yoe / 100)
  let mp := (5 * doy + 2) / 153
  let d := doy - (153 * mp + 2) / 5 + 1
  let m := if mp < 10 then mp + 3 else mp - 9
  (if m ≤ 2 then y + 1 else y, m, d)

/-- `strftime('%Y-%m-%d')` on a day number. -/
def formatted_date (o : Int) : List Char :=
  let ymd := civilFromDaysNat o.toNat
  padZero 4 (natToChars ymd.1) ++ ('-' :: padZero 2 (natToChars ymd.2.1)) ++ ('-' :: padZero 2 (natToChars ymd.2.2))

/-! ## Daily fetcher date computation (`download_daily_lesson_audio_files`) -/

/-- `last_saturday = today - timedelta(days=(today.weekday() + 2) % 7)`
followed by the seven dates `last_saturday + i`, `i = 0..6`, as day
numbers. -/
def download_daily_dates (o : Int) : List Int :=
  (List.range 7).map (fun i => (o - ((weekdayI o + 2) % 7)) + (i : Int))

def lessonUrlBase : List Char :=
  "https://d7dlhz1yjc01y.cloudfront.net/audio/en/lessons/".data

/-- The CDN URL probed for the date with day number `o`. -/
def dailyUrl (o : Int) : List Char :=
  lessonUrlBase ++ formatted_date o ++ ".mp3".data

/-- The seven URLs probed by one run of the daily fetcher whose `today`
has day number `o`. -/
def download_daily_urls (o : Int) : List (List Char) :=
  (download_daily_dates o).map dailyUrl

/-! ## Channel configuration (`CHANNEL_IDS`, lines 21-28)

Each entry holds the dict key, the channel id, and the query format as a
function of `(lesson_number, quarter, year, lesson_title)` — Python 3.7+
dict iteration preserves insertion order, so the list order below is the
configuration order. -/

structure ChannelData where
  name : List Char
  cid : List Char
  query_format : Int → Int → Int → List Char → List Char

def CHANNEL_IDS : List ChannelData :=
  [ { name := "3abn".data, cid := "UCw_AthKfwqB3XYpboTFZFmg".data,
      query_format := fun ln q y t =>
        t ++ " | Sabbath School Panel by 3ABN - Lesson ".data ++ intToChars ln
          ++ " Q".data ++ intToChars q ++ " ".data ++ intToChars y },
    { name := "itiswritten".data, cid := "UCtWyoUrGPAkZgnp2486Ir4w".data,
      query_format := fun ln q y t =>
        "Sabbath School - ".data ++ intToChars y ++ " Q".data ++ intToChars q
          ++ " Lesson ".data ++ intToChars ln ++ ": ".data ++ t },
    { name := "hopess".data, cid := "UCm34NbuHzE9t9hHutOxwIOA".data,
      query_format := fun ln _ _ t =>
        "Lesson ".data ++ intToChars ln ++ ": ".data ++ t },
    { name := "claudiocarneiro".data, cid := "UCvJRu-jirSkv6yuxakirENg".data,
      query_format := fun ln q y t =>
        intToChars y ++ " Q".data ++ intToChars q ++ " Lesson ".data ++ intToChars ln
          ++ " – ".data ++ t ++ " – Audio by Percy Harrold".data },
    { name := "HopeLives365".data, cid := "UCOuDMda3jxj-g_iI1P2d2zw".data,
      query_format := fun ln q y _ =>
        "Sabbath School with Mark Finley | Lesson ".data ++ intToChars ln
          ++ " — Q".data ++ intToChars q ++ " – ".data ++ intToChars y },
    { name := "egwhiteaudio".data, cid := "UCPS3A-60tKmKTCKWZMT9upA".data,
      query_format := fun ln q y t =>
        intToChars y ++ " Q".data ++ intToChars q ++ " Lesson ".data ++ intToChars ln
          ++ " – EGW Notes – ".data ++ t } ]

/-! ## Search orchestrator (`search_and_save_urls`, lines 133-165)

The search provider collaborator `sp` maps `(query, channel_id)` to an
optional video URL (`none` models both an empty result and a caught
provider exception).  The first result component is the content of the
URL store file: `none` means the file does not exist (it is deleted at
the start of the run and only created by the first append).  The second
component records the channels queried, in order. -/

def searchLoop (sp : List Char → List Char → Option (List Char)) (ln q y : Int)
    (t : List Char) : List ChannelData → Option (List (List Char)) × List (List Char)
  | [] => (none, [])
  | ch :: rest =>
    let res := sp (ch.query_format ln q y t) ch.cid
    let tail := searchLoop sp ln q y t rest
    match res with
    | some u => (some (u :: tail.1.getD []), ch.name :: tail.2)
    | none => (tail.1, ch.name :: tail.2)

def search_and_save_urls (ln q y : Int) (titleRaw : Option (List Char))
    (sp : List Char → List Char → Option (List Char)) :
    Option (List (List Char)) × List (List Char) :=
  match get_lesson_title titleRaw with
  | none => (none, [])
  | some t => if t.isEmpty then (none, []) else searchLoop sp ln q y t CHANNEL_IDS

/-! ## Download orchestrator (`download_audio_from_urls`, lines 202-233)

`downloaded` is the membership set read once from the ledger before the
loop; `ledger` is the ledger file content, appended to on each
successful download; `dl` is the media download provider (`false`
models a caught provider exception).  The second result component
records the URLs for which the provider was invoked. -/

def dlLoop (dl : List Char → Bool) (downloaded : List (List Char)) (ledger : List (List Char)) :
    List (List Char) → List (List Char) × List (List Char)
  | [] => (ledger, [])
  | u :: rest =>
    if u ∈ downloaded then dlLoop dl downloaded ledger rest
    else if dl u then
      ((dlLoop dl downloaded (ledger ++ [u]) rest).1, u :: (dlLoop dl downloaded (ledger ++ [u]) rest).2)
    else
      ((dlLoop dl downloaded ledger rest).1, u :: (dlLoop dl downloaded ledger rest).2)

/-- Returns the final ledger content and the provider invocations; the
ledger file is created empty when absent, so the caller passes its
current content (empty list when it was just created). -/
def download_audio_from_urls (urls ledger : List (List Char)) (dl : List Char → Bool) :
    List (List Char) × List (List Char) :=
  dlLoop dl ledger ledger urls

/-! ## Working-directory state

`files` lists the directory entries other than the two state files, in
directory-scan (glob) order; `urls` and `downloaded` are the contents of
`urls.txt` and `downloaded.txt`, `none` when the file does not exist. -/

structure FsState where
  files : List (List Char)
  urls : Option (List (List Char))
  downloaded : Option (List (List Char))
deriving DecidableEq, Repr

def isAudio (name : List Char) : Bool :=
  endsWithLit ".mp3".data name || endsWithLit ".m4a".data name

def fileExists (st : FsState) (name : List Char) : Bool :=
  st.files.contains name

def addFile (st : FsState) (name : List Char) : FsState :=
  { st with files := st.files ++ [name] }

/-! ## Cleanup (`compare_and_cleanup_lesson_files` / `delete_audio_files`,
lines 236-289)

The regex `(\d{4})\s*Q(\d)\s*Lesson\s*(\d+)` applied with `re.search`:
the match is attempted at each position from the left; at a given
position the pattern is deterministic (each `\s*` and the final `\d+`
are maximal runs, each followed by a character they cannot consume). -/

def isDigitChar (c : Char) : Bool := c.isDigit

def digitVal (c : Char) : Nat := c.toNat - 48

def natOfDigits (l : List Char) : Nat :=
  l.foldl (fun a c => a * 10 + digitVal c) 0

/-- Match the lesson pattern anchored at the start of `s`. -/
def matchLessonAt (s : List Char) : Option (Nat × Nat × Nat) :=
  match s with
  | c1 :: c2 :: c3 :: c4 :: rest =>
    if isDigitChar c1 && isDigitChar c2 && isDigitChar c3 && isDigitChar c4 then
      match rest.dropWhile isSpaceChar with
      | 'Q' :: cq :: rest3 =>
        if isDigitChar cq then
          let rest4 := rest3.dropWhile isSpaceChar
          if rest4.take 6 = "Lesson".data then
            let digs := (rest4.drop 6).dropWhile isSpaceChar |>.takeWhile isDigitChar
            if digs.isEmpty then none
            else some (natOfDigits [c1, c2, c3, c4], digitVal cq, natOfDigits digs)
          else none
        else none
      | _ => none
    else none
  | _ => none

/-- `re.search` of the lesson pattern: leftmost match. -/
def reSearchLesson : List Char → Option (Nat × Nat × Nat)
  | [] => none
  | c :: cs =>
    match matchLessonAt (c :: cs) with
    | some r => some r
    | none => reSearchLesson cs

/-- The comparison on line 258-260 of the source (parsed file fields
against the current period, both Python ints). -/
def staleLess (fy fq fl : Nat) (cy cq cl : Int) : Bool :=
  decide ((fy : Int) < cy)
    || (decide ((fy : Int) = cy) && decide ((fq : Int) < cq))
    || (decide ((fy : Int) = cy) && decide ((fq : Int) = cq) && decide ((fl : Int) < cl))

/-- `delete_audio_files`: remove every `.mp3`/`.m4a` file and both state
files. -/
def delete_audio_files (st : FsState) : FsState :=
  { files := st.files.filter (fun n => !(isAudio n)), urls := none, downloaded := none }

/-- `glob("*Lesson*.mp3") + glob("*Lesson*.m4a")` in directory order. -/
def lessonFilesOf (st : FsState) : List (List Char) :=
  st.files.filter (fun n => occursIn "Lesson".data n && endsWithLit ".mp3".data n)
    ++ st.files.filter (fun n => occursIn "Lesson".data n && endsWithLit ".m4a".data n)

/-- The `for file_name in lesson_files` loop; the second component
lists the files examined before the loop returned. -/
def cleanupLoop (st : FsState) (cy cq cl : Int) : List (List Char) → FsState × List (List Char)
  | [] => (st, [])
  | f :: fs =>
    match reSearchLesson f with
    | some (fy, fq, fl) =>
      if staleLess fy fq fl cy cq cl then (delete_audio_files st, [f])
      else ((cleanupLoop st cy cq cl fs).1, f :: (cleanupLoop st cy cq cl fs).2)
    | none => ((cleanupLoop st cy cq cl fs).1, f :: (cleanupLoop st cy cq cl fs).2)

def compare_and_cleanup_lesson_files (st : FsState) (cy cq cl : Int) :
    FsState × List (List Char) :=
  let lf := lessonFilesOf st
  if lf.isEmpty then (st, []) else cleanupLoop st cy cq cl lf

/-! ## Plain file download (`download_file`, lines 321-349) -/

/-- `url.split('/')[-1]`. -/
def urlLastSegment (url : List Char) : List Char :=
  (url.reverse.takeWhile (fun c => c ≠ '/')).reverse

/-- `getOk` is the HTTP GET collaborator (`false` models any of the
caught request exceptions, which leave the state unchanged).  The
second component reports whether a network request was issued. -/
def download_file (url : List Char) (getOk : Bool) (st : FsState) : FsState × Bool :=
  if fileExists st (urlLastSegment url) then (st, false)
  else if getOk then (addFile st (urlLastSegment url), true)
  else (st, true)

/-! ## Daily fetcher (`download_daily_lesson_audio_files`, lines 292-319) -/

/-- `probe` is the HEAD request (`true` = status 200, `false` = any
other status or a caught request exception). -/
def daily_step (probe : Int → Bool) (getOk : Int → Bool) (o : Int) (st : FsState) : FsState :=
  (download_daily_dates o).foldl
    (fun s d =>
      if probe d then
        if fileExists s (formatted_date d ++ ".mp3".data) then s
        else (download_file (dailyUrl d) (getOk d) s).1
      else s)
    st

/-! ## Main pipeline (`__main__`, lines 353-371)

The only statement of the pipeline not wrapped in a try/except is
`open(url_file, 'r')` in `download_audio_from_urls`; it raises
`FileNotFoundError` when `urls.txt` does not exist, modelled by the
explicit error below. -/

inductive PyError where
  | fileNotFound
deriving DecidableEq, Repr

structure PipelineEnv where
  titleRaw : Option (List Char)
  sp : List Char → List Char → Option (List Char)
  dl : List Char → Bool
  probe : Int → Bool
  getOk : Int → Bool

def main_run (env : PipelineEnv) (today : Date) (st0 : FsState) : Except PyError FsState :=
  let qw := get_quarter_and_week today
  let current_year : Int := (today.year : Int)
  let st1 := (compare_and_cleanup_lesson_files st0 current_year qw.1 qw.2).1
  let sres := search_and_save_urls qw.2 qw.1 current_year env.titleRaw env.sp
  let st2 := { st1 with urls := sres.1 }
  match st2.urls with
  | none => Except.error PyError.fileNotFound
  | some urls =>
    let led := st2.downloaded.getD []
    let dres := download_audio_from_urls urls led env.dl
    let st3 := { st2 with downloaded := some dres.1 }
    Except.ok (daily_step env.probe env.getOk (rataDie today.year today.month today.day) st3)

/-! ## Helper lemmas for the period calculator -/

theorem fdiv_seven_cast (n : Nat) : ((n : Int)).fdiv 7 = ((n / 7 : Nat) : Int) := by
  cases n with
  | zero => rfl
  | succ m => rfl

theorem fdiv_seven_nonneg (a : Int) (h : 0 ≤ a) : a.fdiv 7 = a / 7 := by
  obtain ⟨n, rfl⟩ := Int.eq_ofNat_of_zero_le h
  rw [fdiv_seven_cast]
  omega

theorem daysBeforeMonth_succ_le (y m : Nat) :
    daysBeforeMonth y m ≤ daysBeforeMonth y (m + 1) := by
  match m with
  | 0 => simp [daysBeforeMonth]
  | m + 1 => exact Nat.le_add_right _ _

theorem daysBeforeMonth_mono (y : Nat) {m m' : Nat} (h : m ≤ m') :
    daysBeforeMonth y m ≤ daysBeforeMonth y m' := by
  induction m' with
  | zero => obtain rfl := Nat.le_zero.mp h; exact Nat.le_refl _
  | succ k ih =>
    rcases Nat.eq_or_lt_of_le h with rfl | hlt
    · exact Nat.le_refl _
    · exact Nat.le_trans (ih (by omega)) (daysBeforeMonth_succ_le y k)

theorem quarterStartMonth_le {m : Nat} (h1 : 1 ≤ m) : quarterStartMonth m ≤ m := by
  unfold quarterStartMonth
  split_ifs <;> omega

theorem rataDie_qs_le (dt : Date) (h : dt.valid) :
    rataDie dt.year (quarterStartMonth dt.month) 1 ≤ rataDie dt.year dt.month dt.day := by
  obtain ⟨hy, hm1, hm2, hd1, hd2⟩ := h
  have hmono := daysBeforeMonth_mono dt.year (quarterStartMonth_le hm1)
  unfold rataDie
  omega

theorem rataDie_qs_upper (dt : Date) (h : dt.valid) :
    rataDie dt.year dt.month dt.day ≤ rataDie dt.year (quarterStartMonth dt.month) 1 + 91 := by
  obtain ⟨y, m, d⟩ := dt
  obtain ⟨hy, hm1, hm2, hd1, hd2⟩ := h
  simp only at *
  have key : daysBeforeMonth y m + d ≤ daysBeforeMonth y (quarterStartMonth m) + 92 := by
    interval_cases m <;> cases hL : isLeapYear y <;>
      simp_all [quarterStartMonth, daysBeforeMonth, daysInMonth] <;> omega
  unfold rataDie
  omega

theorem day_difference_nonneg (dt : Date) (h : dt.valid) : 0 ≤ day_difference dt := by
  have := rataDie_qs_le dt h
  unfold day_difference week_start_date days_since_saturday weekday
  omega

/-- Claim C1: for every valid calendar date, `get_quarter_and_week` returns the
quarter given by the month bands 1-3, 4-6, 7-9, 10-12 (hence a quarter in
1..4) and a week of quarter of the form
`floor((date - weekStart) / 7) + 1 ≥ 1`, where `weekStart` is the most
recent Saturday on or before the first day of the quarter (characterised
below as the unique day with weekday Saturday lying in the seven days
ending at the quarter start); in particular 2025-02-03 yields quarter 1,
week 6. -/
theorem get_quarter_and_week_correct (dt : Date) (h : dt.valid) :
    ((1 ≤ dt.month ∧ dt.month ≤ 3) → (get_quarter_and_week dt).1 = 1) ∧
    ((4 ≤ dt.month ∧ dt.month ≤ 6) → (get_quarter_and_week dt).1 = 2) ∧
    ((7 ≤ dt.month ∧ dt.month ≤ 9) → (get_quarter_and_week dt).1 = 3) ∧
    ((10 ≤ dt.month ∧ dt.month ≤ 12) → (get_quarter_and_week dt).1 = 4) ∧
    ((get_quarter_and_week dt).1 = 1 ∨ (get_quarter_and_week dt).1 = 2 ∨
      (get_quarter_and_week dt).1 = 3 ∨ (get_quarter_and_week dt).1 = 4) ∧
    1 ≤ (get_quarter_and_week dt).2 ∧
    (∃ ws : Int, weekdayI ws = 5 ∧
      ws ≤ (rataDie dt.year (quarterStartMonth dt.month) 1 : Int) ∧
      (rataDie dt.year (quarterStartMonth dt.month) 1 : Int) < ws + 7 ∧
      (get_quarter_and_week dt).2 = ((rataDie dt.year dt.month dt.day : Int) - ws).fdiv 7 + 1) ∧
    get_quarter_and_week ⟨2025, 2, 3⟩ = (1, 6) := by
  obtain ⟨hy, hm1, hm2, hd1, hd2⟩ := h
  have h0 : 0 ≤ day_difference dt := day_difference_nonneg dt ⟨hy, hm1, hm2, hd1, hd2⟩
  refine ⟨?_, ?_, ?_, ?_, ?_, ?_, ?_, ?_⟩
  · intro hm
    show quarterOf dt.month = 1
    unfold quarterOf; split_ifs <;> omega
  · intro hm
    show quarterOf dt.month = 2
    unfold quarterOf; split_ifs <;> omega
  · intro hm
    show quarterOf dt.month = 3
    unfold quarterOf; split_ifs <;> omega
  · intro hm
    show quarterOf dt.month = 4
    unfold quarterOf; split_ifs <;> omega
  · show quarterOf dt.month = 1 ∨ quarterOf dt.month = 2 ∨ quarterOf dt.month = 3 ∨ quarterOf dt.month = 4
    unfold quarterOf; split_ifs <;> norm_num
  · show 1 ≤ (day_difference dt).fdiv 7 + 1
    rw [fdiv_seven_nonneg _ h0]
    omega
  · refine ⟨week_start_date dt, ?_, ?_, ?_, rfl⟩
    · unfold weekdayI week_start_date days_since_saturday weekday
      omega
    · unfold week_start_date days_since_saturday weekday
      omega
    · unfold week_start_date days_since_saturday weekday
      omega
  · decide

/-- Witness for C1 at the date 2025-02-03. -/
theorem get_quarter_and_week_correct_witness :
    ((1 ≤ (2 : Nat) ∧ (2 : Nat) ≤ 3) → (get_quarter_and_week ⟨2025, 2, 3⟩).1 = 1) ∧
    ((4 ≤ (2 : Nat) ∧ (2 : Nat) ≤ 6) → (get_quarter_and_week ⟨2025, 2, 3⟩).1 = 2) ∧
    ((7 ≤ (2 : Nat) ∧ (2 : Nat) ≤ 9) → (get_quarter_and_week ⟨2025, 2, 3⟩).1 = 3) ∧
    ((10 ≤ (2 : Nat) ∧ (2 : Nat) ≤ 12) → (get_quarter_and_week ⟨2025, 2, 3⟩).1 = 4) ∧
    ((get_quarter_and_week ⟨2025, 2, 3⟩).1 = 1 ∨ (get_quarter_and_week ⟨2025, 2, 3⟩).1 = 2 ∨
      (get_quarter_and_week ⟨2025, 2, 3⟩).1 = 3 ∨ (get_quarter_and_week ⟨2025, 2, 3⟩).1 = 4) ∧
    1 ≤ (get_quarter_and_week ⟨2025, 2, 3⟩).2 ∧
    (∃ ws : Int, weekdayI ws = 5 ∧
      ws ≤ (rataDie 2025 (quarterStartMonth 2) 1 : Int) ∧
      (rataDie 2025 (quarterStartMonth 2) 1 : Int) < ws + 7 ∧
      (get_quarter_and_week ⟨2025, 2, 3⟩).2 = ((rataDie 2025 2 3 : Int) - ws).fdiv 7 + 1) ∧
    get_quarter_and_week ⟨2025, 2, 3⟩ = (1, 6) :=
  get_quarter_and_week_correct ⟨2025, 2, 3⟩ (by decide)

/-- Claim C10: for every valid calendar date the week of quarter returned by
`get_quarter_and_week` is at most 14. -/
theorem week_of_quarter_le_14 (dt : Date) (h : dt.valid) :
    (get_quarter_and_week dt).2 ≤ 14 := by
  have h0 : 0 ≤ day_difference dt := day_difference_nonneg dt h
  have hub := rataDie_qs_upper dt h
  have h97 : day_difference dt ≤ 97 := by
    unfold day_difference week_start_date days_since_saturday weekday
    omega
  show (day_difference dt).fdiv 7 + 1 ≤ 14
  rw [fdiv_seven_nonneg _ h0]
  omega

/-- Witness for C10 at the date 2025-09-30 (last day of the longest quarter). -/
theorem week_of_quarter_le_14_witness :
    (get_quarter_and_week ⟨2025, 9, 30⟩).2 ≤ 14 :=
  week_of_quarter_le_14 ⟨2025, 9, 30⟩ (by decide)

/-! ## Title extraction: claim C4 -/

theorem splitOnChar_ne_nil (c : Char) (s : List Char) : splitOnChar c s ≠ [] := by
  cases s with
  | nil => simp [splitOnChar]
  | cons x xs =>
    unfold splitOnChar
    split_ifs
    · simp
    · cases h : splitOnChar c xs <;> simp

theorem splitOnChar_headD (c : Char) :
    ∀ s : List Char, (splitOnChar c s).headD [] = s.takeWhile (fun x => x ≠ c)
  | [] => rfl
  | x :: xs => by
    unfold splitOnChar
    by_cases hx : x = c
    · simp [hx]
    · cases h : splitOnChar c xs with
      | nil => exact absurd h (splitOnChar_ne_nil c xs)
      | cons hd tl =>
        have ih := splitOnChar_headD c xs
        rw [h] at ih
        simp only [List.headD_cons] at ih
        simp [hx, ih]

/-- Trimmed-character set as the claim words it: whitespace plus all four
quote variants. -/
def isClaimTrim (c : Char) : Bool :=
  isSpaceChar c || c = '"' || c = '“' || c = '”' || c = quoteS

/-- Title extraction as claim C4 words it: the segment before the first
pipe with surrounding whitespace and any of the four quote variants
trimmed; the full trimmed string when no pipe is present. -/
def extractTitleClaim (t : List Char) : List Char :=
  if t.contains '|' then stripEnds isClaimTrim (t.takeWhile (fun x => x ≠ '|'))
  else stripEnds isSpaceChar t

/-- Amended title extraction: after one whitespace trim, the quote
variants are stripped sequentially in the fixed order straight double,
left curly, right curly, straight single, each pass to its own fixed
point, so a quote variant enclosing one that is stripped in a later
pass, or whitespace uncovered by quote stripping, remains. -/
def extractTitleSeq (t : List Char) : List Char :=
  if t.contains '|' then
    ['"', '“', '”', quoteS].foldl (fun s q => stripEnds (fun c => c = q) s)
      (stripEnds isSpaceChar (t.takeWhile (fun x => x ≠ '|')))
  else stripEnds isSpaceChar t

/-- Counterexample to claim C4 as stated: on the raw title whose
pre-pipe segment is a straight-double-quoted string enclosed in curly
double quotes, the code leaves the straight double quotes in place
(they are stripped before the curly ones), while the claimed trimming
of any of the four quote variants would remove them. -/
theorem extract_lesson_title_cex :
    extract_lesson_title "”\"Lesson 5\"”| tail".data ≠
      extractTitleClaim "”\"Lesson 5\"”| tail".data := by
  decide

/-- Claim C4 (amended): the extraction equals the pre-pipe segment with
one whitespace trim followed by the four quote-variant strips applied
sequentially in the order straight double, left curly, right curly,
straight single (the full trimmed title when no pipe is present), and
the two examples of the claim hold. -/
theorem extract_lesson_title_amended :
    (∀ t : List Char, extract_lesson_title t = extractTitleSeq t) ∧
    extract_lesson_title "Lesson 5 | Sabbath School Panel by 3ABN - Lesson 5 Q1 2025".data
      = "Lesson 5".data ∧
    extract_lesson_title "Simple Title".data = "Simple Title".data := by
  refine ⟨?_, by decide, by decide⟩
  intro t
  unfold extract_lesson_title extractTitleSeq
  cases hp : t.contains '|'
  · simp
  · rw [if_pos rfl, if_pos rfl, splitOnChar_headD]
    simp only [List.foldl_cons, List.foldl_nil]

/-! ## Cleanup on the first stale file: claim C3 -/

/-- A file name whose leftmost lesson-pattern match parses to a period
tuple lexicographically strictly below the current `(year, quarter,
lesson)` tuple. -/
def StaleFile (cy cq cl : Int) (f : List Char) : Prop :=
  ∃ fy fq fl : Nat, reSearchLesson f = some (fy, fq, fl) ∧
    ((fy : Int) < cy ∨ ((fy : Int) = cy ∧ (fq : Int) < cq) ∨
      ((fy : Int) = cy ∧ (fq : Int) = cq ∧ (fl : Int) < cl))

theorem staleLess_iff (fy fq fl : Nat) (cy cq cl : Int) :
    staleLess fy fq fl cy cq cl = true ↔
      ((fy : Int) < cy ∨ ((fy : Int) = cy ∧ (fq : Int) < cq) ∨
        ((fy : Int) = cy ∧ (fq : Int) = cq ∧ (fl : Int) < cl)) := by
  unfold staleLess
  simp only [Bool.or_eq_true, Bool.and_eq_true, decide_eq_true_eq]
  tauto

theorem cleanupLoop_first_stale (cy cq cl : Int) (st : FsState) :
    ∀ (l : List (List Char)) (i : Nat) (hi : i < l.length),
      StaleFile cy cq cl (l.get ⟨i, hi⟩) →
      (∀ j (hj : j < l.length), j < i → ¬ StaleFile cy cq cl (l.get ⟨j, hj⟩)) →
      cleanupLoop st cy cq cl l = (delete_audio_files st, l.take (i + 1)) := by
  intro l
  induction l with
  | nil => intro i hi; simp at hi
  | cons f fs ih =>
    intro i hi hst hbef
    match i with
    | 0 =>
      have h0 : StaleFile cy cq cl f := hst
      obtain ⟨fy, fq, fl, hre, hlex⟩ := h0
      have hsl : staleLess fy fq fl cy cq cl = true := (staleLess_iff fy fq fl cy cq cl).mpr hlex
      unfold cleanupLoop
      simp [hre, hsl]
    | i + 1 =>
      have hilt : i < fs.length := Nat.lt_of_succ_lt_succ hi
      have hf : ¬ StaleFile cy cq cl f := hbef 0 (by simp) (by omega)
      have hst' : StaleFile cy cq cl (fs.get ⟨i, hilt⟩) := hst
      have hbef' : ∀ j (hj : j < fs.length), j < i → ¬ StaleFile cy cq cl (fs.get ⟨j, hj⟩) :=
        fun j hj hlt => hbef (j + 1) (Nat.succ_lt_succ hj) (by omega)
      have htail := ih i hilt hst' hbef'
      cases hre : reSearchLesson f with
      | none =>
        unfold cleanupLoop
        simp [hre, htail]
      | some r =>
        obtain ⟨fy, fq, fl⟩ := r
        have hsl : staleLess fy fq fl cy cq cl = false := by
          cases hb : staleLess fy fq fl cy cq cl
          · rfl
          · exact absurd ⟨fy, fq, fl, hre, (staleLess_iff fy fq fl cy cq cl).mp hb⟩ hf
        unfold cleanupLoop
        simp [hre, hsl, htail]

/-- Claim C3: whenever the scan of the matching audio files meets, at
position `i`, the first file whose parsed `(year, quarter, lesson)`
tuple is lexicographically strictly below the current one, the cleanup
deletes every `.mp3`/`.m4a` file plus both state files and stops: the
examined files are exactly the first `i + 1` scanned names. -/
theorem compare_and_cleanup_first_stale (st : FsState) (cy cq cl : Int) (i : Nat)
    (hi : i < (lessonFilesOf st).length)
    (hstale : StaleFile cy cq cl ((lessonFilesOf st).get ⟨i, hi⟩))
    (hbefore : ∀ j (hj : j < (lessonFilesOf st).length), j < i →
      ¬ StaleFile cy cq cl ((lessonFilesOf st).get ⟨j, hj⟩)) :
    compare_and_cleanup_lesson_files st cy cq cl =
      ({ files := st.files.filter (fun n => !(isAudio n)), urls := none, downloaded := none },
        (lessonFilesOf st).take (i + 1)) := by
  have hne : (lessonFilesOf st).isEmpty = false := by
    cases h : lessonFilesOf st
    · rw [h] at hi; simp at hi
    · rfl
  unfold compare_and_cleanup_lesson_files
  simp only [hne, Bool.false_eq_true, if_false]
  rw [cleanupLoop_first_stale cy cq cl st (lessonFilesOf st) i hi hstale hbefore]
  rfl

def stW : FsState :=
  { files := ["2025 Q1 Lesson 5.mp3".data, "2025 Q1 Lesson 3.mp3".data, "notes.txt".data],
    urls := some [], downloaded := some [] }

/-- Witness for C3: the spec instance with on-disk periods (2025, Q1, 5)
and (2025, Q1, 3) against the current period (2025, 1, 10); the first
scanned file already triggers the full purge. -/
theorem compare_and_cleanup_first_stale_witness :
    compare_and_cleanup_lesson_files stW 2025 1 10 =
      ({ files := stW.files.filter (fun n => !(isAudio n)), urls := none, downloaded := none },
        (lessonFilesOf stW).take 1) :=
  compare_and_cleanup_first_stale stW 2025 1 10 0 (by decide)
    ⟨2025, 1, 5, by decide, by decide⟩
    (by intro j hj hlt; exact absurd hlt (Nat.not_lt_zero j))

/-! ## Search orchestrator resilience: claims C5 and C7 -/

theorem searchLoop_spec (sp : List Char → List Char → Option (List Char)) (ln q y : Int)
    (t : List Char) :
    ∀ chans : List ChannelData,
      (searchLoop sp ln q y t chans).2 = chans.map (fun c => c.name) ∧
      (searchLoop sp ln q y t chans).1.getD []
        = (chans.map (fun c => sp (c.query_format ln q y t) c.cid)).filterMap id ∧
      ((searchLoop sp ln q y t chans).1 = none ↔
        (chans.map (fun c => sp (c.query_format ln q y t) c.cid)).filterMap id = [])
  | [] => by simp [searchLoop]
  | ch :: rest => by
    obtain ⟨ih1, ih2, ih3⟩ := searchLoop_spec sp ln q y t rest
    unfold searchLoop
    cases hres : sp (ch.query_format ln q y t) ch.cid with
    | some u => simp [hres, ih1, ih2]
    | none => simp [hres, ih1, ih2, ih3]

/-- Claim C5: when the title lookup succeeds, every one of the six
configured channels is queried in configuration order, an individual
channel failure (`sp` returning `none`) is skipped without aborting the
remaining channels, and the URL store holds exactly the URLs of the
successful channels in configuration order (the store file exists iff
at least one channel succeeded). -/
theorem search_and_save_urls_resilient (ln q y : Int) (titleRaw : Option (List Char))
    (sp : List Char → List Char → Option (List Char)) (t : List Char)
    (h1 : get_lesson_title titleRaw = some t) (h2 : t ≠ []) :
    (search_and_save_urls ln q y titleRaw sp).2 = CHANNEL_IDS.map (fun c => c.name) ∧
    (search_and_save_urls ln q y titleRaw sp).2.length = 6 ∧
    (search_and_save_urls ln q y titleRaw sp).1.getD []
      = (CHANNEL_IDS.map (fun c => sp (c.query_format ln q y t) c.cid)).filterMap id ∧
    ((search_and_save_urls ln q y titleRaw sp).1 = none ↔
      (CHANNEL_IDS.map (fun c => sp (c.query_format ln q y t) c.cid)).filterMap id = []) := by
  have hE : t.isEmpty = false := by
    cases t
    · exact absurd rfl h2
    · rfl
  have hrun : search_and_save_urls ln q y titleRaw sp = searchLoop sp ln q y t CHANNEL_IDS := by
    unfold search_and_save_urls
    rw [h1]
    simp [hE]
  obtain ⟨s1, s2, s3⟩ := searchLoop_spec sp ln q y t CHANNEL_IDS
  refine ⟨hrun ▸ s1, ?_, hrun ▸ s2, hrun ▸ s3⟩
  rw [hrun, s1]
  rfl

def rawTitleW : List Char :=
  "Lesson 5 | Sabbath School Panel by 3ABN - Lesson 5 Q1 2025".data

/-- A search provider that fails for exactly two of the six configured
channels and returns the channel id for the others. -/
def spW : List Char → List Char → Option (List Char) :=
  fun _ cid =>
    if cid = "UCtWyoUrGPAkZgnp2486Ir4w".data ∨ cid = "UCOuDMda3jxj-g_iI1P2d2zw".data then none
    else some cid

/-- Witness for C5: two of the six channels fail and the store holds the
four successful URLs in configuration order. -/
theorem search_and_save_urls_resilient_witness :
    (search_and_save_urls 5 1 2025 (some rawTitleW) spW).2 = CHANNEL_IDS.map (fun c => c.name) ∧
    (search_and_save_urls 5 1 2025 (some rawTitleW) spW).2.length = 6 ∧
    (search_and_save_urls 5 1 2025 (some rawTitleW) spW).1.getD []
      = (CHANNEL_IDS.map (fun c => spW (c.query_format 5 1 2025 "Lesson 5".data) c.cid)).filterMap id ∧
    ((search_and_save_urls 5 1 2025 (some rawTitleW) spW).1 = none ↔
      (CHANNEL_IDS.map (fun c => spW (c.query_format 5 1 2025 "Lesson 5".data) c.cid)).filterMap id = []) :=
  search_and_save_urls_resilient 5 1 2025 (some rawTitleW) spW "Lesson 5".data
    (by decide) (by decide)

/-- Claim C7: when the title lookup yields no title the search step
performs no channel searches and writes nothing: afterwards the URL
store file does not exist, and the failure is an ordinary return value
of the total function, not an exception. -/
theorem search_and_save_urls_no_title (ln q y : Int)
    (sp : List Char → List Char → Option (List Char)) :
    search_and_save_urls ln q y none sp = (none, []) := rfl

/-! ## Download idempotence: claim C6 -/

theorem dlLoop_ledger_mono (dl : List Char → Bool) (downloaded : List (List Char)) :
    ∀ (urls ledger : List (List Char)) (v : List Char), v ∈ ledger →
      v ∈ (dlLoop dl downloaded ledger urls).1
  | [], _, _, hv => hv
  | u :: rest, ledger, v, hv => by
    unfold dlLoop
    split_ifs with h1 h2
    · exact dlLoop_ledger_mono dl downloaded rest ledger v hv
    · exact dlLoop_ledger_mono dl downloaded rest (ledger ++ [u]) v (by simp [hv])
    · exact dlLoop_ledger_mono dl downloaded rest ledger v hv

theorem dlLoop_covers (dl : List Char → Bool) (downloaded : List (List Char)) :
    ∀ (urls ledger : List (List Char)),
      (∀ v ∈ (dlLoop dl downloaded ledger urls).2, dl v = true) →
      ∀ u ∈ urls, u ∈ (dlLoop dl downloaded ledger urls).1 ∨ u ∈ downloaded := by
  intro urls
  induction urls with
  | nil => intro ledger h u hu; simp at hu
  | cons w rest ih =>
    intro ledger h u hu
    unfold dlLoop at h ⊢
    by_cases hd : w ∈ downloaded
    · rw [if_pos hd] at h ⊢
      rcases List.mem_cons.mp hu with rfl | hu'
      · exact Or.inr hd
      · exact ih ledger h u hu'
    · rw [if_neg hd] at h ⊢
      cases hw : dl w with
      | false =>
        exact absurd (h w (by simp [hw])) (by simp [hw])
      | true =>
        simp only [hw, if_true] at h ⊢
        rcases List.mem_cons.mp hu with rfl | hu'
        · exact Or.inl (dlLoop_ledger_mono dl downloaded rest (ledger ++ [u]) u (by simp))
        · exact ih (ledger ++ [w]) (fun v hv => h v (by simp [hv])) u hu'

theorem dlLoop_all_skipped (dl : List Char → Bool) (downloaded : List (List Char)) :
    ∀ (urls ledger : List (List Char)), (∀ u ∈ urls, u ∈ downloaded) →
      (dlLoop dl downloaded ledger urls).2 = [] := by
  intro urls
  induction urls with
  | nil => intro ledger _; rfl
  | cons w rest ih =>
    intro ledger h
    unfold dlLoop
    rw [if_pos (h w (by simp))]
    exact ih ledger (fun u hu => h u (by simp [hu]))

/-- Claim C6: if a first run of the download orchestrator succeeds for
every URL it attempts, a second run on the unchanged URL store and the
resulting ledger invokes the download provider zero times. -/
theorem download_audio_idempotent (urls l0 : List (List Char)) (dl : List Char → Bool)
    (h : ∀ u ∈ (download_audio_from_urls urls l0 dl).2, dl u = true) :
    (download_audio_from_urls urls ((download_audio_from_urls urls l0 dl).1) dl).2 = [] := by
  apply dlLoop_all_skipped
  intro u hu
  rcases dlLoop_covers dl l0 urls l0 h u hu with h1 | h2
  · exact h1
  · exact dlLoop_ledger_mono dl l0 urls l0 u h2

/-- Witness for C6: two URLs, an empty initial ledger and an
always-succeeding provider; the second run performs no downloads. -/
theorem download_audio_idempotent_witness :
    (∀ u ∈ (download_audio_from_urls ["a".data, "b".data] [] (fun _ => true)).2,
      (fun _ : List Char => true) u = true) ∧
    (download_audio_from_urls ["a".data, "b".data]
      ((download_audio_from_urls ["a".data, "b".data] [] (fun _ => true)).1)
      (fun _ => true)).2 = [] :=
  ⟨by decide, download_audio_idempotent ["a".data, "b".data] [] (fun _ => true) (by decide)⟩

/-! ## Pipeline completion: claim C2 -/

def envC2 : PipelineEnv :=
  { titleRaw := none, sp := fun _ _ => none, dl := fun _ => true,
    probe := fun _ => false, getOk := fun _ => false }

/-- Counterexample to claim C2 as stated: on a run with the credential
present whose title lookup yields no title, the URL store is deleted and
never recreated, and the unguarded store read in the download step
raises a file-not-found error, so the pipeline does not complete its
four-step pass. -/
theorem main_run_cex :
    main_run envC2 ⟨2025, 2, 3⟩ ⟨[], none, none⟩ = Except.error PyError.fileNotFound := by
  rfl

/-- Claim C2 (amended): a run with the credential present completes its
four-step pass without an unhandled error precisely when the URL store
file exists at the moment the download orchestrator reads it, i.e. when
the search step wrote at least one URL; when the title lookup yields no
title (or every channel search fails) the store file is absent and the
run aborts with an uncaught file-not-found error at the store read.
Individual item failures (search, download, probe) never abort a run in
which the store exists, as the quantification over the provider
functions shows. -/
theorem main_run_completes_iff (env : PipelineEnv) (today : Date) (st : FsState) :
    (∃ r, main_run env today st = Except.ok r) ↔
      (search_and_save_urls (get_quarter_and_week today).2 (get_quarter_and_week today).1
        ((today.year : Nat) : Int) env.titleRaw env.sp).1 ≠ none := by
  unfold main_run
  cases hs : (search_and_save_urls (get_quarter_and_week today).2 (get_quarter_and_week today).1
      ((today.year : Nat) : Int) env.titleRaw env.sp).1 with
  | none => simp [hs]
  | some urls => simp [hs]

/-! ## Daily fetcher probes: claim C8 -/

/-- Claim C8: for every value of `today` (as a day number `o`) the daily
fetcher probes exactly 7 dates, namely the most recent Saturday on or
before today (characterised as the unique Saturday in the seven days
ending at today) plus offsets 0..6, each formatted into the fixed CDN
URL template; for the week starting Saturday 2025-01-04 the probed URLs
are exactly those of 2025-01-04 through 2025-01-10. -/
theorem daily_probe_dates (o : Int) :
    (download_daily_dates o).length = 7 ∧
    (∃ ls : Int, weekdayI ls = 5 ∧ ls ≤ o ∧ o < ls + 7 ∧
      download_daily_dates o = (List.range 7).map (fun i => ls + (i : Int))) ∧
    download_daily_urls o = (download_daily_dates o).map dailyUrl ∧
    download_daily_urls ((rataDie 2025 1 4 : Nat) : Int) =
      [ "https://d7dlhz1yjc01y.cloudfront.net/audio/en/lessons/2025-01-04.mp3".data,
        "https://d7dlhz1yjc01y.cloudfront.net/audio/en/lessons/2025-01-05.mp3".data,
        "https://d7dlhz1yjc01y.cloudfront.net/audio/en/lessons/2025-01-06.mp3".data,
        "https://d7dlhz1yjc01y.cloudfront.net/audio/en/lessons/2025-01-07.mp3".data,
        "https://d7dlhz1yjc01y.cloudfront.net/audio/en/lessons/2025-01-08.mp3".data,
        "https://d7dlhz1yjc01y.cloudfront.net/audio/en/lessons/2025-01-09.mp3".data,
        "https://d7dlhz1yjc01y.cloudfront.net/audio/en/lessons/2025-01-10.mp3".data ] := by
  refine ⟨by rfl, ⟨o - ((weekdayI o + 2) % 7), ?_, ?_, ?_, rfl⟩,
    rfl, by decide⟩
  · unfold weekdayI; omega
  · unfold weekdayI; omega
  · unfold weekdayI; omega

/-! ## Plain-file download skip: claim C9 -/

/-- Claim C9: when a local file named like the last path segment of the
URL already exists, `download_file` returns without issuing a network
request and without modifying the filesystem state. -/
theorem download_file_skips_existing (url : List Char) (g : Bool) (st : FsState)
    (h : fileExists st (urlLastSegment url) = true) :
    download_file url g st = (st, false) := by
  unfold download_file
  rw [if_pos h]

def stW9 : FsState := { files := ["2025-01-04.mp3".data], urls := none, downloaded := none }

/-- Witness for C9: the daily URL of 2025-01-04 with its file already on
disk is skipped and the state is unchanged. -/
theorem download_file_skips_existing_witness :
    fileExists stW9 (urlLastSegment (dailyUrl ((rataDie 2025 1 4 : Nat) : Int))) = true ∧
    download_file (dailyUrl ((rataDie 2025 1 4 : Nat) : Int)) true stW9 = (stW9, false) :=
  ⟨by decide, download_file_skips_existing _ true stW9 (by decide)⟩

end LessonStudy
